import Mathlib

/-!
Verification of the eww configuration compiler (`src/config/mod.rs`):
a shallow embedding of the XML-to-`EwwConfig` parsing pipeline and of
initial-state generation, with theorems about error propagation,
last-write-wins map insertion and the default-overlay precedence.

External collaborators that are not part of the verified source file
(the XML node adapter, duration/number parsing, the primitive-value
model) are modelled from the specification; the two widget parsers and
the process runner are taken as parameters.
-/

namespace Eww

/-- Errors, modelling `anyhow::Error`: a message, possibly wrapped with
layers of context added by `.context(...)`. -/
inductive Err where
  | msg (s : String)
  | context (ctx : String) (e : Err)
deriving DecidableEq

/-- Render an error with all its context layers, outermost first. -/
def Err.render : Err → String
  | .msg s => s
  | .context c e => c ++ ": " ++ e.render

/-- `true` iff the second character list starts with the first. -/
def leadsWith : List Char → List Char → Bool
  | [], _ => true
  | _ :: _, [] => false
  | a :: as, b :: bs => a = b && leadsWith as bs

/-- `true` iff `pat` occurs contiguously within the list. -/
def occursWithin (pat : List Char) : List Char → Bool
  | [] => pat.isEmpty
  | c :: rest => leadsWith pat (c :: rest) || occursWithin pat rest

/-- `true` iff `pat` occurs as a contiguous substring of `s`. -/
def containsStr (s pat : String) : Bool := occursWithin pat.data s.data

/-- Modelled from the spec: a generic XML node is either an element
(tag, attributes, children in document order) or a text node. -/
inductive XmlNode where
  | element (tag : String) (attrs : List (String × String)) (children : List XmlNode)
  | text (s : String)

/-- An XML element: tag, attributes and child nodes in document order. -/
structure XmlElement where
  tag : String
  attrs : List (String × String)
  children : List XmlNode

/-- First-match lookup in an association list. -/
def lookupA {κ ν : Type} [DecidableEq κ] : List (κ × ν) → κ → Option ν
  | [], _ => none
  | p :: rest, k => if p.1 = k then some p.2 else lookupA rest k

def XmlElement.toNode (x : XmlElement) : XmlNode := .element x.tag x.attrs x.children

/-- Modelled from the spec: `XmlNode::as_element` — the node viewed as an
element, failing on a text node. -/
def XmlNode.as_element : XmlNode → Except Err XmlElement
  | .element t a c => .ok ⟨t, a, c⟩
  | .text _ => .error (.msg "expected element, got text node")

/-- Modelled from the spec: child-element iteration in document order
(text children are skipped). -/
def XmlElement.child_elements (x : XmlElement) : List XmlElement :=
  x.children.filterMap fun n =>
    match n with
    | .element t a c => some ⟨t, a, c⟩
    | .text _ => none

/-- Modelled from the spec: required-attribute lookup, failing if the
attribute is absent. -/
def XmlElement.attr (x : XmlElement) (name : String) : Except Err String :=
  match lookupA x.attrs name with
  | some v => .ok v
  | none => .error (.msg ("attribute not found: " ++ name))

/-- Modelled from the spec: required single-named-child lookup — fails if
zero or more than one child element carries the requested tag. -/
def XmlElement.child (x : XmlElement) (name : String) : Except Err XmlElement :=
  match x.child_elements.filter fun c => c.tag = name with
  | [c] => .ok c
  | [] => .error (.msg ("no child element with tag: " ++ name))
  | _ => .error (.msg ("more than one child element with tag: " ++ name))

/-- Modelled from the spec: required single-child lookup with no name
filter — fails unless the node has exactly one child. -/
def XmlElement.only_child (x : XmlElement) : Except Err XmlNode :=
  match x.children with
  | [c] => .ok c
  | _ => .error (.msg "expected exactly one child")

/-- Modelled from the spec: plain-text extraction from a text node. -/
def XmlNode.as_text : XmlNode → Except Err String
  | .text s => .ok s
  | .element _ _ _ => .error (.msg "expected text node")

/-- Render an attribute list, for tag strings in error messages. -/
def attrsString (l : List (String × String)) : String :=
  String.join (l.map fun p => " " ++ p.1 ++ "=" ++ "\"" ++ p.2 ++ "\"")

/-- Modelled from the spec: human-readable tag-string rendering used in
error messages; it names the element's tag. -/
def XmlElement.as_tag_string (x : XmlElement) : String :=
  "<" ++ x.tag ++ attrsString x.attrs ++ ">"

/-- Modelled from the spec: "text-or-sourcecode" extraction — the text of
a text node, or a rendering of an element node. -/
def XmlNode.as_text_or_sourcecode : XmlNode → String
  | .text s => s
  | .element t a _ => "<" ++ t ++ attrsString a ++ ">"

/-- Parse a list of decimal digits into a number; `none` on the empty
list or any non-digit character. -/
def digitsToNat? (cs : List Char) : Option Nat :=
  match cs with
  | [] => none
  | _ =>
    cs.foldl
      (fun acc c =>
        match acc with
        | none => none
        | some n => if c.isDigit then some (n * 10 + (c.toNat - 48)) else none)
      (some 0)

/-- Modelled from the spec: `util::parse_duration` — a duration string
such as "10s" or "5m"; the result is in seconds. -/
def parse_duration (s : String) : Except Err Nat :=
  match s.data.getLast? with
  | some 's' =>
    match digitsToNat? s.data.dropLast with
    | some n => .ok n
    | none => .error (.msg ("invalid duration: " ++ s))
  | some 'm' =>
    match digitsToNat? s.data.dropLast with
    | some n => .ok (n * 60)
    | none => .error (.msg ("invalid duration: " ++ s))
  | some 'h' =>
    match digitsToNat? s.data.dropLast with
    | some n => .ok (n * 3600)
    | none => .error (.msg ("invalid duration: " ++ s))
  | _ => .error (.msg ("invalid duration: " ++ s))

/-- Modelled from the spec: parsing of a numeric (`i32`) attribute;
overflow is out of scope. -/
def parseInt (s : String) : Except Err Int :=
  match s.data with
  | '-' :: rest =>
    match digitsToNat? rest with
    | some n => .ok (-(n : Int))
    | none => .error (.msg ("could not parse integer: " ++ s))
  | cs =>
    match digitsToNat? cs with
    | some n => .ok (n : Int)
    | none => .error (.msg ("could not parse integer: " ++ s))

/-- String-backed identifier for a reactive variable (`VarName`). -/
structure VarName where
  raw : String
deriving DecidableEq

/-- String-backed identifier for a window (`WindowName`). -/
structure WindowName where
  raw : String
deriving DecidableEq

/-- Modelled from the spec: a typed scalar parsed from literal text;
modelled by its raw text (the structure beyond the text is external). -/
structure PrimitiveValue where
  raw : String
deriving DecidableEq

/-- Modelled from the spec: `PrimitiveValue::parse_string` turns raw text
into a primitive value. -/
def PrimitiveValue.parse_string (s : String) : PrimitiveValue := ⟨s⟩

/-- Modelled from the spec: a reusable widget template, keyed by its
declared name; structure beyond the name is external to this core. -/
structure WidgetDefinition where
  name : String
deriving DecidableEq

/-- Modelled from the spec: a widget-tree node produced by the external
widget-tree parser; kept opaque as the underlying XML node. -/
structure WidgetUse where
  node : XmlNode

/-- `ScriptVar`: a named, interval-driven external-command variable. -/
structure ScriptVar where
  name : VarName
  command : String
  interval : Nat
deriving DecidableEq

/-- Hash map modelled as an association list where `insert` removes any
previous binding of the key (so present keys are unique, and insertion
is last-write-wins — `std::collections::HashMap` semantics). -/
structure HMap (κ ν : Type) where
  entries : List (κ × ν)

def HMap.empty {κ ν : Type} : HMap κ ν := ⟨[]⟩

def HMap.insert {κ ν : Type} [DecidableEq κ] (m : HMap κ ν) (k : κ) (v : ν) : HMap κ ν :=
  ⟨(k, v) :: m.entries.filter fun p => p.1 ≠ k⟩

def HMap.lookup {κ ν : Type} [DecidableEq κ] (m : HMap κ ν) (k : κ) : Option ν :=
  lookupA m.entries k

/-- Build a map by inserting the pairs in order (collect semantics:
later pairs overwrite earlier ones with the same key). -/
def HMap.ofList {κ ν : Type} [DecidableEq κ] (l : List (κ × ν)) : HMap κ ν :=
  l.foldl (fun m p => m.insert p.1 p.2) HMap.empty

/-- `HashMap::extend`: insert every entry of `other` into `m`,
overwriting bindings of keys present in both. -/
def HMap.extend {κ ν : Type} [DecidableEq κ] (m other : HMap κ ν) : HMap κ ν :=
  other.entries.foldl (fun m p => m.insert p.1 p.2) m

/-- `collect::<Result<_>>` over a mapped iterator: apply `f` to each
element in order, stopping at the first error. -/
def mapME {α β : Type} (f : α → Except Err β) : List α → Except Err (List β)
  | [] => .ok []
  | a :: rest =>
    match f a with
    | .error e => .error e
    | .ok b =>
      match mapME f rest with
      | .error e => .error e
      | .ok bs => .ok (b :: bs)

/-- A `for` loop threading state through fallible steps, stopping at the
first error. -/
def foldlME {σ α : Type} (f : σ → α → Except Err σ) : σ → List α → Except Err σ
  | s, [] => .ok s
  | s, a :: rest =>
    match f s a with
    | .error e => .error e
    | .ok s2 => foldlME f s2 rest

/-- `ScriptVar::from_xml_element`: requires tag `script-var`, the `name`
and `interval` attributes (interval parsed as a duration), and exactly
one child which must be a text node giving the command. -/
def ScriptVar.from_xml_element (xml : XmlElement) : Except Err ScriptVar :=
  if xml.tag ≠ "script-var" then
    .error (.msg ("Tag needed to be of type 'script-var', but was: " ++ xml.as_tag_string))
  else
    match xml.attr "name" with
    | .error e => .error e
    | .ok name =>
      match xml.attr "interval" with
      | .error e => .error e
      | .ok istr =>
        match parse_duration istr with
        | .error e => .error e
        | .ok interval =>
          match xml.only_child with
          | .error e => .error e
          | .ok c =>
            match c.as_text with
            | .error e => .error e
            | .ok command => .ok ⟨⟨name⟩, command, interval⟩

/-- `EwwWindowDefinition`: window geometry plus the root widget node. -/
structure EwwWindowDefinition where
  position : Int × Int
  size : Int × Int
  widget : WidgetUse

/-- `EwwWindowDefinition::from_xml_element`, parameterised by the
external widget-tree parser `wup` (`WidgetUse::from_xml_node`). -/
def EwwWindowDefinition.from_xml_element (wup : XmlNode → Except Err WidgetUse)
    (xml : XmlElement) : Except Err EwwWindowDefinition :=
  if xml.tag ≠ "window" then
    .error (.msg ("Tag needed to be of type 'window', but was: " ++ xml.as_tag_string))
  else
    match xml.child "size" with
    | .error e => .error e
    | .ok size_node =>
      match size_node.attr "x" with
      | .error e => .error e
      | .ok sxs =>
        match parseInt sxs with
        | .error e => .error e
        | .ok sx =>
          match size_node.attr "y" with
          | .error e => .error e
          | .ok sys =>
            match parseInt sys with
            | .error e => .error e
            | .ok sy =>
              match xml.child "pos" with
              | .error e => .error e
              | .ok pos_node =>
                match pos_node.attr "x" with
                | .error e => .error e
                | .ok pxs =>
                  match parseInt pxs with
                  | .error e => .error e
                  | .ok px =>
                    match pos_node.attr "y" with
                    | .error e => .error e
                    | .ok pys =>
                      match parseInt pys with
                      | .error e => .error e
                      | .ok py =>
                        match xml.child "widget" with
                        | .error e => .error e
                        | .ok widgetEl =>
                          match widgetEl.only_child with
                          | .error e => .error e
                          | .ok wnode =>
                            match wup wnode with
                            | .error e => .error e
                            | .ok widget => .ok ⟨(px, py), (sx, sy), widget⟩

/-- The assembled configuration. -/
structure EwwConfig where
  widgets : HMap String WidgetDefinition
  windows : HMap WindowName EwwWindowDefinition
  initial_variables : HMap VarName PrimitiveValue
  script_vars : List ScriptVar

/-- The per-child step of the `definitions` block: parse a widget
definition and key it by its name. -/
def widgetPair (wdp : XmlElement → Except Err WidgetDefinition)
    (c : XmlElement) : Except Err (String × WidgetDefinition) :=
  match wdp c with
  | .error e => .error e
  | .ok d => .ok (d.name, d)

/-- The `definitions` stage of `EwwConfig::from_xml_element`: locate the
`definitions` child, parse every child element, and collect into a map;
child-parse errors are wrapped with the block context. -/
def parseDefinitions (wdp : XmlElement → Except Err WidgetDefinition)
    (xml : XmlElement) : Except Err (HMap String WidgetDefinition) :=
  match xml.child "definitions" with
  | .error e => .error e
  | .ok el =>
    match mapME (widgetPair wdp) el.child_elements with
    | .error e => .error (.context "error parsing widget definitions" e)
    | .ok pairs => .ok (HMap.ofList pairs)

/-- The per-child step of the `windows` block: read the `name` attribute,
then parse the window definition. -/
def windowPair (wup : XmlNode → Except Err WidgetUse)
    (c : XmlElement) : Except Err (WindowName × EwwWindowDefinition) :=
  match c.attr "name" with
  | .error e => .error e
  | .ok n =>
    match EwwWindowDefinition.from_xml_element wup c with
    | .error e => .error e
    | .ok d => .ok (⟨n⟩, d)

/-- The `windows` stage of `EwwConfig::from_xml_element`. -/
def parseWindows (wup : XmlNode → Except Err WidgetUse)
    (xml : XmlElement) : Except Err (HMap WindowName EwwWindowDefinition) :=
  match xml.child "windows" with
  | .error e => .error e
  | .ok el =>
    match mapME (windowPair wup) el.child_elements with
    | .error e => .error (.context "error parsing window definitions" e)
    | .ok pairs => .ok (HMap.ofList pairs)

/-- The default text of a `var` element: the text-or-sourcecode of its
only child, or the empty string when `only_child` fails (zero or several
children). -/
def varDefault (node : XmlElement) : String :=
  match node.only_child with
  | .ok c => c.as_text_or_sourcecode
  | .error _ => ""

/-- One iteration of the `variables` loop: dispatch on the child's tag
(`var` inserts a default, `script-var` appends a script variable, any
other tag is an illegal element). -/
def processVariablesNode (st : HMap VarName PrimitiveValue × List ScriptVar)
    (node : XmlElement) : Except Err (HMap VarName PrimitiveValue × List ScriptVar) :=
  if node.tag = "var" then
    match node.attr "name" with
    | .error e => .error e
    | .ok n => .ok (st.1.insert ⟨n⟩ (PrimitiveValue.parse_string (varDefault node)), st.2)
  else if node.tag = "script-var" then
    match ScriptVar.from_xml_element node with
    | .error e => .error e
    | .ok sv => .ok (st.1, st.2 ++ [sv])
  else
    .error (.msg ("Illegal element in variables block: " ++ node.as_tag_string))

/-- The `variables` stage of `EwwConfig::from_xml_element`: the block is
optional (`.ok()` turns its absence into empty results); when present,
its children are processed in document order. -/
def parseVariablesBlock (xml : XmlElement) :
    Except Err (HMap VarName PrimitiveValue × List ScriptVar) :=
  match xml.child "variables" with
  | .error _ => .ok (HMap.empty, [])
  | .ok vb => foldlME processVariablesNode (HMap.empty, []) vb.child_elements

/-- `EwwConfig::from_xml_element`, parameterised by the two external
parsers (`WidgetDefinition::from_xml_element` and
`WidgetUse::from_xml_node`): parse the three blocks in document order,
aborting at the first error, and assemble the configuration. -/
def EwwConfig.from_xml_element (wdp : XmlElement → Except Err WidgetDefinition)
    (wup : XmlNode → Except Err WidgetUse) (xml : XmlElement) : Except Err EwwConfig :=
  match parseDefinitions wdp xml with
  | .error e => .error e
  | .ok widgets =>
    match parseWindows wup xml with
    | .error e => .error e
    | .ok windows =>
      match parseVariablesBlock xml with
      | .error e => .error e
      | .ok vars => .ok ⟨widgets, windows, vars.1, vars.2⟩

/-- `EwwConfig::generate_initial_state`, parameterised by the external
process runner `run` (`eww_state::run_command`): run every script
variable's command in declaration order, collect the results into a map,
then overlay the static defaults. -/
def EwwConfig.generate_initial_state (run : String → Except Err PrimitiveValue)
    (cfg : EwwConfig) : Except Err (HMap VarName PrimitiveValue) :=
  match mapME (fun v =>
      match run v.command with
      | .error e => .error e
      | .ok val => .ok (v.name, val)) cfg.script_vars with
  | .error e => .error e
  | .ok pairs => .ok ((HMap.ofList pairs).extend cfg.initial_variables)

/-! ### Lemmas about the embedded combinators -/

@[simp] theorem lookupA_cons {κ ν : Type} [DecidableEq κ] (p : κ × ν) (l : List (κ × ν))
    (k : κ) : lookupA (p :: l) k = if p.1 = k then some p.2 else lookupA l k := rfl

theorem lookupA_eq_none_of_not_mem {κ ν : Type} [DecidableEq κ]
    (l : List (κ × ν)) (k : κ) (h : k ∉ l.map Prod.fst) : lookupA l k = none := by
  induction l with
  | nil => rfl
  | cons p rest ih =>
    simp only [List.map_cons, List.mem_cons, not_or] at h
    have hne : ¬p.1 = k := fun hc => h.1 hc.symm
    simp [lookupA, hne, ih h.2]

theorem lookupA_append {κ ν : Type} [DecidableEq κ] (l1 l2 : List (κ × ν)) (k : κ) :
    lookupA (l1 ++ l2) k =
      match lookupA l1 k with
      | some v => some v
      | none => lookupA l2 k := by
  induction l1 with
  | nil => simp [lookupA]
  | cons p rest ih =>
    by_cases hk : p.1 = k
    · simp [lookupA, hk]
    · simp [lookupA, hk, ih]

theorem lookupA_filter_ne {κ ν : Type} [DecidableEq κ] (l : List (κ × ν)) (k k' : κ)
    (h : k' ≠ k) : lookupA (l.filter fun p => p.1 ≠ k) k' = lookupA l k' := by
  induction l with
  | nil => rfl
  | cons p rest ih =>
    rw [List.filter_cons]
    by_cases hp : p.1 = k
    · rw [if_neg (by simp [hp]), ih]
      have hk2 : ¬p.1 = k' := by rw [hp]; exact fun hc => h hc.symm
      rw [lookupA_cons, if_neg hk2]
    · rw [if_pos (by simp [hp]), lookupA_cons, lookupA_cons, ih]

theorem lookupA_reverse_of_nodup {κ ν : Type} [DecidableEq κ] (l : List (κ × ν))
    (h : (l.map Prod.fst).Nodup) (k : κ) : lookupA l.reverse k = lookupA l k := by
  induction l with
  | nil => rfl
  | cons p rest ih =>
    simp only [List.map_cons, List.nodup_cons] at h
    rw [List.reverse_cons, lookupA_append]
    by_cases hk : p.1 = k
    · have hmem : k ∉ rest.reverse.map Prod.fst := by
        rw [List.map_reverse, List.mem_reverse, ← hk]
        exact h.1
      rw [lookupA_eq_none_of_not_mem _ _ hmem]
      simp [lookupA, hk]
    · rw [ih h.2]
      cases hr : lookupA rest k with
      | some v => simp [lookupA, hk, hr]
      | none => simp [lookupA, hk, hr]

theorem HMap.lookup_insert {κ ν : Type} [DecidableEq κ] (m : HMap κ ν) (k k' : κ) (v : ν) :
    (m.insert k v).lookup k' = if k = k' then some v else m.lookup k' := by
  show lookupA ((k, v) :: m.entries.filter fun p => p.1 ≠ k) k' = _
  rw [lookupA_cons]
  by_cases hk : k = k'
  · rw [if_pos hk, if_pos hk]
  · rw [if_neg hk, if_neg hk, lookupA_filter_ne _ _ _ fun hc => hk hc.symm]
    rfl

theorem HMap.lookup_foldl_insert {κ ν : Type} [DecidableEq κ]
    (l : List (κ × ν)) (m : HMap κ ν) (k : κ) :
    HMap.lookup (l.foldl (fun m p => m.insert p.1 p.2) m) k =
      match lookupA l.reverse k with
      | some v => some v
      | none => m.lookup k := by
  induction l generalizing m with
  | nil => rfl
  | cons p rest ih =>
    simp only [List.foldl_cons, List.reverse_cons]
    rw [ih, lookupA_append]
    cases hr : lookupA rest.reverse k with
    | some v => rfl
    | none =>
      by_cases hk : p.1 = k
      · simp [lookupA, hk, HMap.lookup_insert]
      · simp [lookupA, hk, HMap.lookup_insert]

theorem HMap.lookup_extend {κ ν : Type} [DecidableEq κ] (m d : HMap κ ν)
    (h : (d.entries.map Prod.fst).Nodup) (k : κ) :
    (m.extend d).lookup k =
      match d.lookup k with
      | some v => some v
      | none => m.lookup k := by
  unfold HMap.extend
  rw [HMap.lookup_foldl_insert, lookupA_reverse_of_nodup d.entries h]
  rfl

theorem mapME_first_error {α β : Type} (f : α → Except Err β) (pre : List α) (bad : α)
    (post : List α) (e : Err) (hpre : ∀ a ∈ pre, ∃ b, f a = .ok b)
    (hbad : f bad = .error e) : mapME f (pre ++ bad :: post) = .error e := by
  induction pre with
  | nil => simp [mapME, hbad]
  | cons a rest ih =>
    obtain ⟨b, hb⟩ := hpre a (List.mem_cons_self a rest)
    have hrest := ih fun x hx => hpre x (List.mem_cons_of_mem a hx)
    simp [mapME, hb, hrest]

theorem mapME_all_ok {α β : Type} (f : α → Except Err β) (l : List α)
    (h : ∀ a ∈ l, ∃ b, f a = .ok b) : ∃ bs, mapME f l = .ok bs := by
  induction l with
  | nil => exact ⟨[], rfl⟩
  | cons a rest ih =>
    obtain ⟨b, hb⟩ := h a (List.mem_cons_self a rest)
    obtain ⟨bs, hbs⟩ := ih fun x hx => h x (List.mem_cons_of_mem a hx)
    exact ⟨b :: bs, by simp [mapME, hb, hbs]⟩

theorem foldlME_append {σ α : Type} (f : σ → α → Except Err σ) (s : σ) (l1 l2 : List α) :
    foldlME f s (l1 ++ l2) =
      match foldlME f s l1 with
      | .error e => .error e
      | .ok s1 => foldlME f s1 l2 := by
  induction l1 generalizing s with
  | nil => rfl
  | cons a rest ih =>
    cases ha : f s a with
    | error e => simp [foldlME, ha]
    | ok s2 => simp [foldlME, ha, ih]

/-! ### Structural lemmas about the assembler -/

theorem from_xml_element_defs_error (wdp : XmlElement → Except Err WidgetDefinition)
    (wup : XmlNode → Except Err WidgetUse) (xml : XmlElement) (e : Err)
    (h : parseDefinitions wdp xml = .error e) :
    EwwConfig.from_xml_element wdp wup xml = .error e := by
  unfold EwwConfig.from_xml_element
  rw [h]

theorem from_xml_element_windows_error (wdp : XmlElement → Except Err WidgetDefinition)
    (wup : XmlNode → Except Err WidgetUse) (xml : XmlElement)
    (w : HMap String WidgetDefinition) (e : Err)
    (hd : parseDefinitions wdp xml = .ok w) (hw : parseWindows wup xml = .error e) :
    EwwConfig.from_xml_element wdp wup xml = .error e := by
  unfold EwwConfig.from_xml_element
  rw [hd, hw]

theorem from_xml_element_vars_error (wdp : XmlElement → Except Err WidgetDefinition)
    (wup : XmlNode → Except Err WidgetUse) (xml : XmlElement)
    (w : HMap String WidgetDefinition) (ws : HMap WindowName EwwWindowDefinition) (e : Err)
    (hd : parseDefinitions wdp xml = .ok w) (hw : parseWindows wup xml = .ok ws)
    (hv : parseVariablesBlock xml = .error e) :
    EwwConfig.from_xml_element wdp wup xml = .error e := by
  unfold EwwConfig.from_xml_element
  rw [hd, hw, hv]

theorem from_xml_element_all_ok (wdp : XmlElement → Except Err WidgetDefinition)
    (wup : XmlNode → Except Err WidgetUse) (xml : XmlElement)
    (w : HMap String WidgetDefinition) (ws : HMap WindowName EwwWindowDefinition)
    (vars : HMap VarName PrimitiveValue × List ScriptVar)
    (hd : parseDefinitions wdp xml = .ok w) (hw : parseWindows wup xml = .ok ws)
    (hv : parseVariablesBlock xml = .ok vars) :
    EwwConfig.from_xml_element wdp wup xml = .ok ⟨w, ws, vars.1, vars.2⟩ := by
  unfold EwwConfig.from_xml_element
  rw [hd, hw, hv]

theorem from_xml_element_ok_inv {wdp : XmlElement → Except Err WidgetDefinition}
    {wup : XmlNode → Except Err WidgetUse} {xml : XmlElement} {cfg : EwwConfig}
    (h : EwwConfig.from_xml_element wdp wup xml = .ok cfg) :
    ∃ w ws vars, parseDefinitions wdp xml = .ok w ∧ parseWindows wup xml = .ok ws ∧
      parseVariablesBlock xml = .ok vars ∧ cfg = ⟨w, ws, vars.1, vars.2⟩ := by
  cases hd : parseDefinitions wdp xml with
  | error e => rw [from_xml_element_defs_error wdp wup xml e hd] at h; exact Except.noConfusion h
  | ok w =>
    cases hw : parseWindows wup xml with
    | error e =>
      rw [from_xml_element_windows_error wdp wup xml w e hd hw] at h
      exact Except.noConfusion h
    | ok ws =>
      cases hv : parseVariablesBlock xml with
      | error e =>
        rw [from_xml_element_vars_error wdp wup xml w ws e hd hw hv] at h
        exact Except.noConfusion h
      | ok vars =>
        rw [from_xml_element_all_ok wdp wup xml w ws vars hd hw hv] at h
        injection h with h2
        exact ⟨w, ws, vars, rfl, rfl, rfl, h2.symm⟩

theorem attr_eq_ok (x : XmlElement) (nm v : String) (h : lookupA x.attrs nm = some v) :
    x.attr nm = .ok v := by
  unfold XmlElement.attr
  rw [h]

theorem attr_ok_inv {x : XmlElement} {nm v : String} (h : x.attr nm = .ok v) :
    lookupA x.attrs nm = some v := by
  unfold XmlElement.attr at h
  cases hl : lookupA x.attrs nm with
  | some w => rw [hl] at h; injection h with h2; rw [h2]
  | none => rw [hl] at h; exact Except.noConfusion h

theorem only_child_ok_inv {x : XmlElement} {c : XmlNode} (h : x.only_child = .ok c) :
    x.children = [c] := by
  unfold XmlElement.only_child at h
  cases hc : x.children with
  | nil => rw [hc] at h; exact Except.noConfusion h
  | cons a tail =>
    cases tail with
    | nil =>
      rw [hc] at h
      injection h with h2
      rw [h2]
    | cons b rest => rw [hc] at h; exact Except.noConfusion h

theorem child_eq_error_of_absent (x : XmlElement) (nm : String)
    (h : (x.child_elements.filter fun c => c.tag = nm) = []) :
    x.child nm = .error (.msg ("no child element with tag: " ++ nm)) := by
  unfold XmlElement.child
  rw [h]

/-- A successful `ScriptVar` parse implies every structural requirement:
the right tag, both attributes present, a parsable interval, and exactly
one child. -/
theorem scriptVar_ok_implies {xml : XmlElement} {sv : ScriptVar}
    (h : ScriptVar.from_xml_element xml = .ok sv) :
    xml.tag = "script-var" ∧ (∃ n, lookupA xml.attrs "name" = some n) ∧
      (∃ i d, lookupA xml.attrs "interval" = some i ∧ parse_duration i = .ok d) ∧
      ∃ c, xml.children = [c] := by
  unfold ScriptVar.from_xml_element at h
  by_cases ht : xml.tag ≠ "script-var"
  · rw [if_pos ht] at h; exact Except.noConfusion h
  · rw [if_neg ht] at h
    cases hn : xml.attr "name" with
    | error e => simp only [hn] at h; exact Except.noConfusion h
    | ok n =>
      simp only [hn] at h
      cases hi : xml.attr "interval" with
      | error e => simp only [hi] at h; exact Except.noConfusion h
      | ok i =>
        simp only [hi] at h
        cases hdur : parse_duration i with
        | error e => simp only [hdur] at h; exact Except.noConfusion h
        | ok d =>
          simp only [hdur] at h
          cases hc : xml.only_child with
          | error e => simp only [hc] at h; exact Except.noConfusion h
          | ok c =>
            exact ⟨not_not.mp ht, ⟨n, attr_ok_inv hn⟩,
              ⟨i, d, attr_ok_inv hi, hdur⟩, ⟨c, only_child_ok_inv hc⟩⟩

/-- A `var` element whose child count is not exactly one contributes the
empty default text. -/
theorem varDefault_of_not_one_child (node : XmlElement)
    (h : node.children.length ≠ 1) : varDefault node = "" := by
  unfold varDefault XmlElement.only_child
  cases hc : node.children with
  | nil => rfl
  | cons a tail =>
    cases tail with
    | nil => rw [hc] at h; exact absurd rfl h
    | cons b rest => rfl

/-! ### Claim theorems -/

/-- C1: for every configuration whose script commands all succeed,
`generate_initial_state` returns a map in which any name that is both a
script-variable name and a default key carries the static default (the
defaults overwrite the script results); concretely, with
`script_vars = [(a, echo 1)]` and defaults `a ↦ default-a, b ↦ default-b`
the result is exactly those two defaults. -/
theorem generate_initial_state_defaults_overwrite :
    (∀ (run : String → Except Err PrimitiveValue) (cfg : EwwConfig),
      (∀ v ∈ cfg.script_vars, ∃ val, run v.command = .ok val) →
      (cfg.initial_variables.entries.map Prod.fst).Nodup →
      ∃ m, cfg.generate_initial_state run = .ok m ∧
        ∀ n v, n ∈ cfg.script_vars.map ScriptVar.name →
          cfg.initial_variables.lookup n = some v → m.lookup n = some v) ∧
    (∀ (run : String → Except Err PrimitiveValue) (val : PrimitiveValue),
      run "echo 1" = .ok val →
      ∃ m, EwwConfig.generate_initial_state run
          ⟨HMap.empty, HMap.empty,
            ⟨[(⟨"a"⟩, ⟨"default-a"⟩), (⟨"b"⟩, ⟨"default-b"⟩)]⟩,
            [⟨⟨"a"⟩, "echo 1", 10⟩]⟩ = .ok m ∧
        m.lookup ⟨"a"⟩ = some ⟨"default-a"⟩ ∧
        m.lookup ⟨"b"⟩ = some ⟨"default-b"⟩ ∧
        m.entries.length = 2) := by
  constructor
  · intro run cfg hok hnd
    obtain ⟨pairs, hp⟩ := mapME_all_ok
      (fun v =>
        match run v.command with
        | .error e => .error e
        | .ok val => .ok (v.name, val))
      cfg.script_vars
      (fun v hv => by
        obtain ⟨val, hval⟩ := hok v hv
        exact ⟨(v.name, val), by simp [hval]⟩)
    refine ⟨(HMap.ofList pairs).extend cfg.initial_variables, ?_, ?_⟩
    · unfold EwwConfig.generate_initial_state
      rw [hp]
    · intro n v _ hl
      rw [HMap.lookup_extend _ _ hnd, hl]
  · intro run val hrun
    have hm : mapME
        (fun v : ScriptVar =>
          match run v.command with
          | .error e => .error e
          | .ok val => .ok (v.name, val))
        [⟨⟨"a"⟩, "echo 1", 10⟩] = .ok [(⟨"a"⟩, val)] := by
      simp [mapME, hrun]
    refine ⟨⟨[(⟨"b"⟩, ⟨"default-b"⟩), (⟨"a"⟩, ⟨"default-a"⟩)]⟩, ?_, rfl, rfl, rfl⟩
    unfold EwwConfig.generate_initial_state
    simp only [hm]
    rfl

/-- C1 witness: the concrete case evaluated with a runner that returns
"1" for every command. -/
theorem generate_initial_state_defaults_overwrite_witness :
    ∃ m, EwwConfig.generate_initial_state (fun _ => .ok ⟨"1"⟩)
        ⟨HMap.empty, HMap.empty,
          ⟨[(⟨"a"⟩, ⟨"default-a"⟩), (⟨"b"⟩, ⟨"default-b"⟩)]⟩,
          [⟨⟨"a"⟩, "echo 1", 10⟩]⟩ = .ok m ∧
      m.lookup ⟨"a"⟩ = some ⟨"default-a"⟩ ∧
      m.lookup ⟨"b"⟩ = some ⟨"default-b"⟩ ∧
      m.entries.length = 2 :=
  generate_initial_state_defaults_overwrite.2 (fun _ => .ok ⟨"1"⟩) ⟨"1"⟩ rfl

/-- C7: if any script variable's command fails, `generate_initial_state`
fails with the error of the first failing variable in declaration order,
regardless of the variables after it — no partial map is produced. -/
theorem generate_initial_state_first_failure
    (run : String → Except Err PrimitiveValue) (cfg : EwwConfig)
    (pre : List ScriptVar) (v : ScriptVar) (post : List ScriptVar) (e : Err)
    (hsplit : cfg.script_vars = pre ++ v :: post)
    (hpre : ∀ u ∈ pre, ∃ val, run u.command = .ok val)
    (hv : run v.command = .error e) :
    cfg.generate_initial_state run = .error e := by
  unfold EwwConfig.generate_initial_state
  rw [hsplit, mapME_first_error _ pre v post e
    (fun u hu => by
      obtain ⟨val, hval⟩ := hpre u hu
      exact ⟨(u.name, val), by simp [hval]⟩)
    (by simp [hv])]

/-- C7 witness: a single failing command makes generation fail with its
error. -/
theorem generate_initial_state_first_failure_witness :
    EwwConfig.generate_initial_state (fun _ => .error (.msg "boom"))
      ⟨HMap.empty, HMap.empty, HMap.empty, [⟨⟨"a"⟩, "false", 5⟩]⟩ = .error (.msg "boom") :=
  generate_initial_state_first_failure (fun _ => .error (.msg "boom"))
    ⟨HMap.empty, HMap.empty, HMap.empty, [⟨⟨"a"⟩, "false", 5⟩]⟩
    [] ⟨⟨"a"⟩, "false", 5⟩ [] (.msg "boom") rfl
    (fun u hu => absurd hu (List.not_mem_nil u)) rfl

/-- C3: parsing a `script-var` node with `name="x" interval="10s"` and
text child "echo hi" yields exactly `ScriptVar x (10s) "echo hi"`; the
parse fails when the tag is wrong, the `name` or `interval` attribute is
missing, the interval text is not a valid duration, or the child count
is not exactly one. -/
theorem scriptVar_round_trip_and_failures :
    ScriptVar.from_xml_element
        ⟨"script-var", [("name", "x"), ("interval", "10s")], [.text "echo hi"]⟩ =
      .ok ⟨⟨"x"⟩, "echo hi", 10⟩ ∧
    (∀ xml : XmlElement, xml.tag ≠ "script-var" →
      ∃ e, ScriptVar.from_xml_element xml = .error e) ∧
    (∀ xml : XmlElement, lookupA xml.attrs "name" = none →
      ∃ e, ScriptVar.from_xml_element xml = .error e) ∧
    (∀ xml : XmlElement, lookupA xml.attrs "interval" = none →
      ∃ e, ScriptVar.from_xml_element xml = .error e) ∧
    (∀ (xml : XmlElement) (i : String), lookupA xml.attrs "interval" = some i →
      (∀ d, parse_duration i ≠ .ok d) →
      ∃ e, ScriptVar.from_xml_element xml = .error e) ∧
    (∀ xml : XmlElement, xml.children.length ≠ 1 →
      ∃ e, ScriptVar.from_xml_element xml = .error e) := by
  refine ⟨rfl, ?_, ?_, ?_, ?_, ?_⟩
  · intro xml ht
    cases hres : ScriptVar.from_xml_element xml with
    | error e => exact ⟨e, rfl⟩
    | ok sv => exact absurd (scriptVar_ok_implies hres).1 ht
  · intro xml hn
    cases hres : ScriptVar.from_xml_element xml with
    | error e => exact ⟨e, rfl⟩
    | ok sv =>
      obtain ⟨n, hn2⟩ := (scriptVar_ok_implies hres).2.1
      rw [hn] at hn2
      exact Option.noConfusion hn2
  · intro xml hi
    cases hres : ScriptVar.from_xml_element xml with
    | error e => exact ⟨e, rfl⟩
    | ok sv =>
      obtain ⟨i, d, hi2, _⟩ := (scriptVar_ok_implies hres).2.2.1
      rw [hi] at hi2
      exact Option.noConfusion hi2
  · intro xml i hi hdur
    cases hres : ScriptVar.from_xml_element xml with
    | error e => exact ⟨e, rfl⟩
    | ok sv =>
      obtain ⟨i2, d, hi2, hd2⟩ := (scriptVar_ok_implies hres).2.2.1
      rw [hi] at hi2
      injection hi2 with hii
      rw [← hii] at hd2
      exact absurd hd2 (hdur d)
  · intro xml hlen
    cases hres : ScriptVar.from_xml_element xml with
    | error e => exact ⟨e, rfl⟩
    | ok sv =>
      obtain ⟨c, hc⟩ := (scriptVar_ok_implies hres).2.2.2
      rw [hc] at hlen
      exact absurd rfl hlen

/-- C3 witness: a wrong tag, a missing interval, and a two-child node
each make the parse fail. -/
theorem scriptVar_round_trip_and_failures_witness :
    (∃ e, ScriptVar.from_xml_element ⟨"foo", [], []⟩ = .error e) ∧
    (∃ e, ScriptVar.from_xml_element ⟨"script-var", [("name", "x")], [.text "c"]⟩ = .error e) ∧
    (∃ e, ScriptVar.from_xml_element
        ⟨"script-var", [("name", "x"), ("interval", "10s")], [.text "a", .text "b"]⟩ =
      .error e) :=
  ⟨scriptVar_round_trip_and_failures.2.1 ⟨"foo", [], []⟩ (by decide),
   scriptVar_round_trip_and_failures.2.2.2.1 ⟨"script-var", [("name", "x")], [.text "c"]⟩ rfl,
   scriptVar_round_trip_and_failures.2.2.2.2.2
     ⟨"script-var", [("name", "x"), ("interval", "10s")], [.text "a", .text "b"]⟩ (by decide)⟩

/-- Trivial widget-definition parser used for concrete documents: every
element is accepted, keyed by its tag. -/
def wdp0 : XmlElement → Except Err WidgetDefinition := fun c => .ok ⟨c.tag⟩

/-- Trivial widget-tree parser used for concrete documents. -/
def wup0 : XmlNode → Except Err WidgetUse := fun n => .ok ⟨n⟩

/-- A well-formed document with one default variable and one script
variable. -/
def okDoc : XmlElement :=
  ⟨"eww", [],
    [.element "definitions" [] [],
     .element "windows" [] [],
     .element "variables" []
       [.element "var" [("name", "y")] [.text "hello"],
        .element "script-var" [("name", "x"), ("interval", "10s")] [.text "echo hi"]]]⟩

/-- C2: `from_xml_element` is total — it returns either a fully
assembled configuration or an error; the first failing widget definition
(in document order) aborts the whole assembly with its error wrapped in
the block context, regardless of everything after it; and when all three
stages succeed the returned configuration carries exactly their
results. -/
theorem from_xml_element_first_error_or_full_assembly :
    (∀ (wdp : XmlElement → Except Err WidgetDefinition)
        (wup : XmlNode → Except Err WidgetUse) (xml : XmlElement),
      (∃ cfg, EwwConfig.from_xml_element wdp wup xml = .ok cfg) ∨
      (∃ e, EwwConfig.from_xml_element wdp wup xml = .error e)) ∧
    (∀ (wdp : XmlElement → Except Err WidgetDefinition)
        (wup : XmlNode → Except Err WidgetUse) (xml defsEl : XmlElement)
        (pre : List XmlElement) (bad : XmlElement) (post : List XmlElement) (e : Err),
      xml.child "definitions" = .ok defsEl →
      defsEl.child_elements = pre ++ bad :: post →
      (∀ c ∈ pre, ∃ d, wdp c = .ok d) →
      wdp bad = .error e →
      EwwConfig.from_xml_element wdp wup xml =
        .error (.context "error parsing widget definitions" e)) ∧
    (∀ (wdp : XmlElement → Except Err WidgetDefinition)
        (wup : XmlNode → Except Err WidgetUse) (xml : XmlElement)
        (w : HMap String WidgetDefinition) (ws : HMap WindowName EwwWindowDefinition)
        (vars : HMap VarName PrimitiveValue × List ScriptVar),
      parseDefinitions wdp xml = .ok w →
      parseWindows wup xml = .ok ws →
      parseVariablesBlock xml = .ok vars →
      EwwConfig.from_xml_element wdp wup xml = .ok ⟨w, ws, vars.1, vars.2⟩) := by
  refine ⟨?_, ?_, from_xml_element_all_ok⟩
  · intro wdp wup xml
    cases hres : EwwConfig.from_xml_element wdp wup xml with
    | error e => exact Or.inr ⟨e, rfl⟩
    | ok cfg => exact Or.inl ⟨cfg, rfl⟩
  · intro wdp wup xml defsEl pre bad post e hc hsplit hpre hbad
    apply from_xml_element_defs_error
    unfold parseDefinitions
    simp only [hc]
    rw [hsplit, mapME_first_error (widgetPair wdp) pre bad post e
      (fun c hcm => by
        obtain ⟨d, hd⟩ := hpre c hcm
        exact ⟨(d.name, d), by simp [widgetPair, hd]⟩)
      (by simp [widgetPair, hbad])]

/-- C2 witness: the success branch evaluated on a concrete document, and
the first-error branch evaluated on a document whose only widget
definition fails to parse. -/
theorem from_xml_element_first_error_or_full_assembly_witness :
    EwwConfig.from_xml_element wdp0 wup0 okDoc =
      .ok ⟨⟨[]⟩, ⟨[]⟩, ⟨[(⟨"y"⟩, ⟨"hello"⟩)]⟩, [⟨⟨"x"⟩, "echo hi", 10⟩]⟩ ∧
    EwwConfig.from_xml_element (fun _ => .error (.msg "widget broken")) wup0
        ⟨"eww", [], [.element "definitions" [] [.element "w" [] []]]⟩ =
      .error (.context "error parsing widget definitions" (.msg "widget broken")) :=
  ⟨from_xml_element_first_error_or_full_assembly.2.2 wdp0 wup0 okDoc
      ⟨[]⟩ ⟨[]⟩ (⟨[(⟨"y"⟩, ⟨"hello"⟩)]⟩, [⟨⟨"x"⟩, "echo hi", 10⟩]) rfl rfl rfl,
   from_xml_element_first_error_or_full_assembly.2.1
      (fun _ => .error (.msg "widget broken")) wup0
      ⟨"eww", [], [.element "definitions" [] [.element "w" [] []]]⟩
      ⟨"definitions", [], [.element "w" [] []]⟩ [] ⟨"w", [], []⟩ [] (.msg "widget broken")
      rfl rfl (fun c hcm => absurd hcm (List.not_mem_nil c)) rfl⟩

/-- C4: when the root has no `variables` child (and the other two blocks
parse), assembly succeeds with empty defaults and no script variables,
and `generate_initial_state` on the result is the empty map for every
runner. -/
theorem from_xml_element_no_variables_block
    (wdp : XmlElement → Except Err WidgetDefinition)
    (wup : XmlNode → Except Err WidgetUse) (xml : XmlElement)
    (w : HMap String WidgetDefinition) (ws : HMap WindowName EwwWindowDefinition)
    (hd : parseDefinitions wdp xml = .ok w)
    (hw : parseWindows wup xml = .ok ws)
    (hnov : (xml.child_elements.filter fun c => c.tag = "variables") = []) :
    EwwConfig.from_xml_element wdp wup xml = .ok ⟨w, ws, HMap.empty, []⟩ ∧
    ∀ run, EwwConfig.generate_initial_state run ⟨w, ws, HMap.empty, []⟩ = .ok HMap.empty := by
  have hv : parseVariablesBlock xml = .ok (HMap.empty, []) := by
    unfold parseVariablesBlock
    rw [child_eq_error_of_absent xml "variables" hnov]
  exact ⟨from_xml_element_all_ok wdp wup xml w ws (HMap.empty, []) hd hw hv, fun run => rfl⟩

/-- C4 witness: a document with only `definitions` and `windows`
children. -/
theorem from_xml_element_no_variables_block_witness :
    EwwConfig.from_xml_element wdp0 wup0
        ⟨"eww", [], [.element "definitions" [] [], .element "windows" [] []]⟩ =
      .ok ⟨⟨[]⟩, ⟨[]⟩, HMap.empty, []⟩ ∧
    EwwConfig.generate_initial_state (fun _ => .ok ⟨"1"⟩)
      ⟨⟨[]⟩, ⟨[]⟩, HMap.empty, []⟩ = .ok HMap.empty := by
  have h := from_xml_element_no_variables_block wdp0 wup0
    ⟨"eww", [], [.element "definitions" [] [], .element "windows" [] []]⟩
    ⟨[]⟩ ⟨[]⟩ rfl rfl rfl
  exact ⟨h.1, h.2 (fun _ => .ok ⟨"1"⟩)⟩

/-- C5: two `window` elements with the same `name` attribute (both
parsing successfully) leave exactly one entry in the windows map, whose
value is the later element's definition (last-write-wins). -/
theorem windows_duplicate_name_last_wins
    (wdp : XmlElement → Except Err WidgetDefinition)
    (wup : XmlNode → Except Err WidgetUse) (xml winEl w1 w2 : XmlElement)
    (w : HMap String WidgetDefinition) (n : String) (d1 d2 : EwwWindowDefinition)
    (vars : HMap VarName PrimitiveValue × List ScriptVar)
    (hd : parseDefinitions wdp xml = .ok w)
    (hwc : xml.child "windows" = .ok winEl)
    (hch : winEl.child_elements = [w1, w2])
    (hn1 : lookupA w1.attrs "name" = some n)
    (hn2 : lookupA w2.attrs "name" = some n)
    (hd1 : EwwWindowDefinition.from_xml_element wup w1 = .ok d1)
    (hd2 : EwwWindowDefinition.from_xml_element wup w2 = .ok d2)
    (hv : parseVariablesBlock xml = .ok vars) :
    ∃ cfg, EwwConfig.from_xml_element wdp wup xml = .ok cfg ∧
      cfg.windows.lookup ⟨n⟩ = some d2 ∧
      (cfg.windows.entries.filter fun p => p.1 = WindowName.mk n).length = 1 := by
  have hp1 : windowPair wup w1 = .ok (⟨n⟩, d1) := by
    unfold windowPair
    simp only [attr_eq_ok w1 "name" n hn1, hd1]
  have hp2 : windowPair wup w2 = .ok (⟨n⟩, d2) := by
    unfold windowPair
    simp only [attr_eq_ok w2 "name" n hn2, hd2]
  have hws : parseWindows wup xml = .ok ⟨[(⟨n⟩, d2)]⟩ := by
    unfold parseWindows
    simp only [hwc, hch]
    simp only [mapME, hp1, hp2]
    simp [HMap.ofList, HMap.insert, HMap.empty]
  refine ⟨⟨w, ⟨[(⟨n⟩, d2)]⟩, vars.1, vars.2⟩,
    from_xml_element_all_ok wdp wup xml w ⟨[(⟨n⟩, d2)]⟩ vars hd hws hv, ?_, ?_⟩
  · simp [HMap.lookup, lookupA]
  · simp [List.filter]

/-- A window element named `w` with distinctive geometry. -/
def winA : XmlNode :=
  .element "window" [("name", "w")]
    [.element "size" [("x", "100"), ("y", "200")] [],
     .element "pos" [("x", "1"), ("y", "2")] [],
     .element "widget" [] [.element "boxA" [] []]]

/-- A second window element also named `w`, with different geometry. -/
def winB : XmlNode :=
  .element "window" [("name", "w")]
    [.element "size" [("x", "300"), ("y", "400")] [],
     .element "pos" [("x", "3"), ("y", "4")] [],
     .element "widget" [] [.element "boxB" [] []]]

/-- A document whose `windows` block holds two windows with the same
name. -/
def dupWinDoc : XmlElement :=
  ⟨"eww", [], [.element "definitions" [] [], .element "windows" [] [winA, winB]]⟩

/-- C5 witness: the duplicate-name document keeps only the later
window's definition. -/
theorem windows_duplicate_name_last_wins_witness :
    ∃ cfg, EwwConfig.from_xml_element wdp0 wup0 dupWinDoc = .ok cfg ∧
      cfg.windows.lookup ⟨"w"⟩ =
        some ⟨(3, 4), (300, 400), ⟨.element "boxB" [] []⟩⟩ ∧
      (cfg.windows.entries.filter fun p => p.1 = WindowName.mk "w").length = 1 :=
  windows_duplicate_name_last_wins wdp0 wup0 dupWinDoc
    ⟨"windows", [], [winA, winB]⟩
    ⟨"window", [("name", "w")],
      [.element "size" [("x", "100"), ("y", "200")] [],
       .element "pos" [("x", "1"), ("y", "2")] [],
       .element "widget" [] [.element "boxA" [] []]]⟩
    ⟨"window", [("name", "w")],
      [.element "size" [("x", "300"), ("y", "400")] [],
       .element "pos" [("x", "3"), ("y", "4")] [],
       .element "widget" [] [.element "boxB" [] []]]⟩
    ⟨[]⟩ "w"
    ⟨(1, 2), (100, 200), ⟨.element "boxA" [] []⟩⟩
    ⟨(3, 4), (300, 400), ⟨.element "boxB" [] []⟩⟩
    (HMap.empty, [])
    rfl rfl rfl rfl rfl rfl rfl rfl

/-- C6: a `variables` block child whose tag is neither `var` nor
`script-var` aborts the whole parse (once the children before it have
been processed) with an illegal-element error whose message names the
offending tag. -/
theorem variables_illegal_element_errors
    (wdp : XmlElement → Except Err WidgetDefinition)
    (wup : XmlNode → Except Err WidgetUse) (xml vb : XmlElement)
    (w : HMap String WidgetDefinition) (ws : HMap WindowName EwwWindowDefinition)
    (pre : List XmlElement) (bad : XmlElement) (post : List XmlElement)
    (st : HMap VarName PrimitiveValue × List ScriptVar)
    (hd : parseDefinitions wdp xml = .ok w)
    (hw : parseWindows wup xml = .ok ws)
    (hvb : xml.child "variables" = .ok vb)
    (hch : vb.child_elements = pre ++ bad :: post)
    (hpre : foldlME processVariablesNode (HMap.empty, []) pre = .ok st)
    (ht1 : bad.tag ≠ "var") (ht2 : bad.tag ≠ "script-var") :
    EwwConfig.from_xml_element wdp wup xml =
      .error (.msg ("Illegal element in variables block: " ++
        ("<" ++ bad.tag ++ attrsString bad.attrs ++ ">"))) := by
  have hbad : processVariablesNode st bad =
      .error (.msg ("Illegal element in variables block: " ++
        ("<" ++ bad.tag ++ attrsString bad.attrs ++ ">"))) := by
    unfold processVariablesNode
    rw [if_neg ht1, if_neg ht2]
    rfl
  apply from_xml_element_vars_error wdp wup xml w ws _ hd hw
  unfold parseVariablesBlock
  simp only [hvb]
  rw [hch, foldlME_append, hpre]
  simp only [foldlME, hbad]

/-- A document whose `variables` block holds an element tagged `foo`. -/
def illegalVarsDoc : XmlElement :=
  ⟨"eww", [],
    [.element "definitions" [] [],
     .element "windows" [] [],
     .element "variables" [] [.element "foo" [] []]]⟩

/-- C6 witness: the `foo` element aborts parsing with an error naming
`foo`. -/
theorem variables_illegal_element_errors_witness :
    EwwConfig.from_xml_element wdp0 wup0 illegalVarsDoc =
      .error (.msg ("Illegal element in variables block: " ++
        ("<" ++ "foo" ++ attrsString [] ++ ">"))) :=
  variables_illegal_element_errors wdp0 wup0 illegalVarsDoc
    ⟨"variables", [], [.element "foo" [] []]⟩ ⟨[]⟩ ⟨[]⟩
    [] ⟨"foo", [], []⟩ [] (HMap.empty, [])
    rfl rfl rfl rfl rfl (by decide) (by decide)

/-- A document whose single window, named `mywindow`, fails to parse
(it lacks its `size` child). -/
def badWindowDoc : XmlElement :=
  ⟨"eww", [],
    [.element "definitions" [] [],
     .element "windows" [] [.element "window" [("name", "mywindow")] []]]⟩

/-- C8 counterexample: when the window named `mywindow` fails to parse,
the propagated error is only the generic block context — the window's
name, although available, appears nowhere in the rendered error. -/
theorem window_parse_error_not_named_counterexample :
    EwwConfig.from_xml_element wdp0 wup0 badWindowDoc =
      .error (.context "error parsing window definitions"
        (.msg "no child element with tag: size")) ∧
    containsStr
      (Err.render (.context "error parsing window definitions"
        (.msg "no child element with tag: size"))) "mywindow" = false :=
  ⟨rfl, by decide⟩

/-- C8 (amended): when parsing a `window` element fails, the whole entry
is rejected and the error is annotated with the generic block context
"error parsing window definitions"; the failing window's name is not
added. -/
theorem window_parse_error_generic_context
    (wdp : XmlElement → Except Err WidgetDefinition)
    (wup : XmlNode → Except Err WidgetUse) (xml winEl : XmlElement)
    (w : HMap String WidgetDefinition) (pre : List XmlElement) (bad : XmlElement)
    (post : List XmlElement) (n : String) (e : Err)
    (hd : parseDefinitions wdp xml = .ok w)
    (hwc : xml.child "windows" = .ok winEl)
    (hch : winEl.child_elements = pre ++ bad :: post)
    (hpre : ∀ c ∈ pre, ∃ p, windowPair wup c = .ok p)
    (hname : lookupA bad.attrs "name" = some n)
    (hbad : EwwWindowDefinition.from_xml_element wup bad = .error e) :
    EwwConfig.from_xml_element wdp wup xml =
      .error (.context "error parsing window definitions" e) := by
  apply from_xml_element_windows_error wdp wup xml w _ hd
  unfold parseWindows
  simp only [hwc]
  rw [hch, mapME_first_error (windowPair wup) pre bad post e hpre
    (by unfold windowPair; simp only [attr_eq_ok bad "name" n hname, hbad])]

/-- C8 witness: the amended statement evaluated on the concrete
document. -/
theorem window_parse_error_generic_context_witness :
    EwwConfig.from_xml_element wdp0 wup0 badWindowDoc =
      .error (.context "error parsing window definitions"
        (.msg "no child element with tag: size")) :=
  window_parse_error_generic_context wdp0 wup0 badWindowDoc
    ⟨"windows", [], [.element "window" [("name", "mywindow")] []]⟩ ⟨[]⟩
    [] ⟨"window", [("name", "mywindow")], []⟩ [] "mywindow"
    (.msg "no child element with tag: size")
    rfl rfl rfl (fun c hc => absurd hc (List.not_mem_nil c)) rfl rfl

/-- The `variables` loop collects, in order, exactly the script
variables parsed from the `script-var`-tagged children. -/
theorem foldlME_script_vars (l : List XmlElement) :
    ∀ (m0 : HMap VarName PrimitiveValue) (sv0 : List ScriptVar)
      (m : HMap VarName PrimitiveValue) (sv : List ScriptVar),
    foldlME processVariablesNode (m0, sv0) l = .ok (m, sv) →
    ∃ parsed, mapME ScriptVar.from_xml_element
        (l.filter fun c => c.tag = "script-var") = .ok parsed ∧
      sv = sv0 ++ parsed := by
  induction l with
  | nil =>
    intro m0 sv0 m sv h
    unfold foldlME at h
    injection h with h2
    injection h2 with hm hs
    subst hs
    exact ⟨[], rfl, (List.append_nil sv0).symm⟩
  | cons c rest ih =>
    intro m0 sv0 m sv h
    unfold foldlME at h
    cases hp : processVariablesNode (m0, sv0) c with
    | error e => simp only [hp] at h; exact Except.noConfusion h
    | ok s2 =>
      simp only [hp] at h
      unfold processVariablesNode at hp
      by_cases hv : c.tag = "var"
      · rw [if_pos hv] at hp
        cases ha : XmlElement.attr c "name" with
        | error e => simp only [ha] at hp; exact Except.noConfusion hp
        | ok nm =>
          simp only [ha] at hp
          injection hp with hp2
          obtain ⟨parsed, hmp, hsv⟩ := ih s2.1 s2.2 m sv h
          have hf : (c :: rest).filter (fun x => x.tag = "script-var") =
              rest.filter fun x => x.tag = "script-var" := by
            simp [List.filter_cons, hv]
          refine ⟨parsed, by rw [hf]; exact hmp, ?_⟩
          rw [hsv, ← hp2]
      · rw [if_neg hv] at hp
        by_cases hsc : c.tag = "script-var"
        · rw [if_pos hsc] at hp
          cases hs : ScriptVar.from_xml_element c with
          | error e => simp only [hs] at hp; exact Except.noConfusion hp
          | ok svar =>
            simp only [hs] at hp
            injection hp with hp2
            obtain ⟨parsed, hmp, hsv⟩ := ih s2.1 s2.2 m sv h
            have hf : (c :: rest).filter (fun x => x.tag = "script-var") =
                c :: rest.filter fun x => x.tag = "script-var" := by
              simp [List.filter_cons, hsc]
            refine ⟨svar :: parsed, ?_, ?_⟩
            · rw [hf]
              simp only [mapME, hs, hmp]
            · rw [hsv, ← hp2]
              simp
        · rw [if_neg hsc] at hp
          exact Except.noConfusion hp

/-- C9: in every successfully parsed document, `script_vars` is exactly
the in-document-order parse of the `script-var` children of the
`variables` block (empty when the block is absent). -/
theorem script_vars_in_document_order
    (wdp : XmlElement → Except Err WidgetDefinition)
    (wup : XmlNode → Except Err WidgetUse) (xml : XmlElement) (cfg : EwwConfig)
    (h : EwwConfig.from_xml_element wdp wup xml = .ok cfg) :
    match xml.child "variables" with
    | .error _ => cfg.script_vars = []
    | .ok vb =>
        mapME ScriptVar.from_xml_element
          (vb.child_elements.filter fun c => c.tag = "script-var") = .ok cfg.script_vars := by
  obtain ⟨w, ws, vars, hd, hw, hv, hcfg⟩ := from_xml_element_ok_inv h
  subst hcfg
  unfold parseVariablesBlock at hv
  cases hc : xml.child "variables" with
  | error e =>
    simp only [hc] at hv
    show vars.2 = []
    injection hv with h2
    rw [← h2]
  | ok vb =>
    simp only [hc] at hv
    show mapME ScriptVar.from_xml_element
      (vb.child_elements.filter fun c => c.tag = "script-var") = .ok vars.2
    obtain ⟨parsed, hmp, hsv⟩ :=
      foldlME_script_vars vb.child_elements HMap.empty [] vars.1 vars.2 hv
    rw [hmp, hsv]
    simp

/-- C9 witness: the well-formed document's single script variable is
recovered in order from the variables block. -/
theorem script_vars_in_document_order_witness :
    mapME ScriptVar.from_xml_element
      (XmlElement.child_elements
          ⟨"variables", [],
            [.element "var" [("name", "y")] [.text "hello"],
             .element "script-var" [("name", "x"), ("interval", "10s")] [.text "echo hi"]]⟩
        |>.filter fun c => c.tag = "script-var") = .ok [⟨⟨"x"⟩, "echo hi", 10⟩] :=
  script_vars_in_document_order wdp0 wup0 okDoc
    ⟨⟨[]⟩, ⟨[]⟩, ⟨[(⟨"y"⟩, ⟨"hello"⟩)]⟩, [⟨⟨"x"⟩, "echo hi", 10⟩]⟩ rfl

/-- C10: a `var` element with more than one child does not fail on the
child-cardinality violation — the variable is inserted with the default
parsed from the empty string, exactly as if the element had no child. -/
theorem var_node_extra_children_default_empty
    (st : HMap VarName PrimitiveValue × List ScriptVar) (node : XmlElement) (n : String)
    (htag : node.tag = "var")
    (hname : lookupA node.attrs "name" = some n)
    (hlen : 1 < node.children.length) :
    processVariablesNode st node =
      .ok (st.1.insert ⟨n⟩ (PrimitiveValue.parse_string ""), st.2) ∧
    processVariablesNode st ⟨"var", node.attrs, []⟩ =
      .ok (st.1.insert ⟨n⟩ (PrimitiveValue.parse_string ""), st.2) := by
  constructor
  · unfold processVariablesNode
    rw [if_pos htag]
    simp only [attr_eq_ok node "name" n hname]
    rw [varDefault_of_not_one_child node hlen.ne']
  · unfold processVariablesNode
    rw [if_pos rfl]
    simp only [attr_eq_ok ⟨"var", node.attrs, []⟩ "name" n hname]
    rfl

/-- C10 witness: a `var` node with two text children is inserted with
the empty-string default, like its childless form. -/
theorem var_node_extra_children_default_empty_witness :
    processVariablesNode (HMap.empty, []) ⟨"var", [("name", "z")], [.text "a", .text "b"]⟩ =
      .ok (HMap.empty.insert ⟨"z"⟩ (PrimitiveValue.parse_string ""), []) ∧
    processVariablesNode (HMap.empty, []) ⟨"var", [("name", "z")], []⟩ =
      .ok (HMap.empty.insert ⟨"z"⟩ (PrimitiveValue.parse_string ""), []) :=
  var_node_extra_children_default_empty (HMap.empty, [])
    ⟨"var", [("name", "z")], [.text "a", .text "b"]⟩ "z" rfl rfl (by decide)

end Eww
